import Mathlib

/-!
Verification development for the MafiaGame contract (MafiaZ repository).

The contract is shallowly embedded: addresses and game identifiers are
natural numbers (0 plays the role of the zero address), the four
fixed-size per-seat arrays of a `Game` are length-4 lists, contract
storage is a `State` record, and every external function becomes a Lean
function returning `Except MafiaError State` (mutating operations) or a
plain value (view functions).  The keccak-based randomness of
`startGame` is abstracted into two hash-function parameters: `H0` for
`keccak256(abi.encode(block.prevrandao, block.timestamp, msg.sender, gameId))`
and `H` for the per-iteration re-derivation
`keccak256(abi.encode(randomSeed, i))`.  The FHE layer is modelled by
storing the plaintext role value as the "handle" and by recording, per
seat, the list of access grants made on that seat's current handle
(`FHE.allowThis` becomes `GrantTarget.contractSelf`, `FHE.allow(h, a)`
becomes `GrantTarget.addr a`).
-/

/-- Access-control grant target for an encrypted-role handle:
either the contract's own address (`FHE.allowThis`) or an explicit
player address (`FHE.allow`). -/
inductive GrantTarget where
  | contractSelf : GrantTarget
  | addr : Nat → GrantTarget
deriving DecidableEq

/-- The `Game` struct of the contract.  Fixed-size 4-element Solidity
arrays become length-4 lists; `encryptedRoles` stores the plaintext
value carried by each handle; `grants` records the access grants made
on each seat's handle (empty before `startGame`). -/
structure Game where
  creator : Nat
  players : List Nat
  encryptedRoles : List Nat
  roles : List Nat
  alive : List Bool
  grants : List (List GrantTarget)
  playerCount : Nat
  started : Bool
deriving DecidableEq

/-- Zero-initialized `Game` record, as Solidity default storage. -/
def defaultGame : Game :=
  { creator := 0
    players := [0, 0, 0, 0]
    encryptedRoles := [0, 0, 0, 0]
    roles := [0, 0, 0, 0]
    alive := [false, false, false, false]
    grants := [[], [], [], []]
    playerCount := 0
    started := false }

/-- Contract storage: `_nextGameId`, `_games`, `_playerIndex`
(the latter maps game id and address to seat position + 1, 0 = absent). -/
structure State where
  nextGameId : Nat
  games : Nat → Game
  playerIndex : Nat → Nat → Nat

/-- Storage of a freshly deployed contract. -/
def initialState : State :=
  { nextGameId := 0, games := fun _ => defaultGame, playerIndex := fun _ _ => 0 }

/-- The custom errors declared by the contract. -/
inductive MafiaError where
  | GameNotFound
  | GameFull
  | PlayerAlreadyJoined
  | PlayerNotInGame
  | GameAlreadyStarted
  | GameNotReady
  | GameNotStarted
  | PlayerAlreadyDead
  | NotWerewolf
  | CannotAttackSelf
deriving DecidableEq

/-- Swap the entries of `l` at positions `i` and `j`
(the three-assignment swap of the shuffle loop). -/
def listSwap (l : List Nat) (i j : Nat) : List Nat :=
  (l.set i (l.getD j 0)).set j (l.getD i 0)

/-- The Fisher-Yates loop of `startGame`:
`for (uint256 i = 3; i > 0; i--)` with
`swapIndex = randomSeed % (i + 1)`, then
`randomSeed = keccak256(abi.encode(randomSeed, i))`, then the swap.
The first argument of the recursion below is the current seed, the
second counts the remaining iterations (the loop variable is `i + 1`
when `i + 1` iterations remain). -/
def fyLoop (H : Nat → Nat → Nat) : Nat → Nat → List Nat → List Nat
  | _, 0, r => r
  | seed, i + 1, r =>
      let swapIndex := seed % (i + 2)
      let seed2 := H seed (i + 1)
      fyLoop H seed2 i (listSwap r (i + 1) swapIndex)

/-- The per-seat assignment loop of `startGame`: for each seat
`i = 0..3`, store the plaintext role, store the encrypted handle,
grant access to the contract itself and the seated player, and mark
the seat alive. -/
def assignLoop (game : Game) (roles : List Nat) : Game :=
  (List.range 4).foldl
    (fun g i =>
      let assignedRole := roles.getD i 0
      { g with
          roles := g.roles.set i assignedRole
          encryptedRoles := g.encryptedRoles.set i assignedRole
          grants := g.grants.set i
            [GrantTarget.contractSelf, GrantTarget.addr (g.players.getD i 0)]
          alive := g.alive.set i true })
    game

/-- The private `_addPlayer` helper: seat `player` at index
`playerCount`, bump the count, record the reverse lookup (+1 offset),
mark the seat alive. -/
def addPlayer (st : State) (gameId player : Nat) : State :=
  let game := st.games gameId
  let newIndex := game.playerCount
  let game2 :=
    { game with
        players := game.players.set newIndex player
        playerCount := game.playerCount + 1
        alive := game.alive.set newIndex true }
  let st2 := { st with games := Function.update st.games gameId game2 }
  { st2 with
      playerIndex := fun g a =>
        if g = gameId ∧ a = player then newIndex + 1 else st2.playerIndex g a }

/-- `createGame()`: allocate the next id, set the creator, seat the
caller.  Returns the new state and the returned game id.  The source
has no revert path, so the embedding is total. -/
def createGame (st : State) (caller : Nat) : State × Nat :=
  let gameId := st.nextGameId
  let st1 := { st with nextGameId := st.nextGameId + 1 }
  let st2 :=
    { st1 with
        games := Function.update st1.games gameId
          { st1.games gameId with creator := caller } }
  (addPlayer st2 gameId caller, gameId)

/-- `joinGame(uint256 gameId)`. -/
def joinGame (st : State) (caller gameId : Nat) : Except MafiaError State :=
  let game := st.games gameId
  if game.creator = 0 then .error .GameNotFound
  else if game.started then .error .GameAlreadyStarted
  else if game.playerCount ≥ 4 then .error .GameFull
  else if st.playerIndex gameId caller ≠ 0 then .error .PlayerAlreadyJoined
  else .ok (addPlayer st gameId caller)

/-- `startGame(uint256 gameId)`.  `H0` abstracts the keccak hash
deriving the initial seed from `(block.prevrandao, block.timestamp,
msg.sender, gameId)`; `H` abstracts the per-iteration re-derivation
hash of `(randomSeed, i)`. -/
def startGame (H0 : Nat → Nat → Nat → Nat → Nat) (H : Nat → Nat → Nat)
    (prevrandao timestamp : Nat) (st : State) (caller gameId : Nat) :
    Except MafiaError State :=
  let game := st.games gameId
  if game.creator = 0 then .error .GameNotFound
  else if game.started then .error .GameAlreadyStarted
  else if st.playerIndex gameId caller = 0 then .error .PlayerNotInGame
  else if game.playerCount ≠ 4 then .error .GameNotReady
  else
    let randomSeed := H0 prevrandao timestamp caller gameId
    let shuffled := fyLoop H randomSeed 3 [1, 1, 2, 3]
    .ok { st with
            games := Function.update st.games gameId
              { assignLoop game shuffled with started := true } }

/-- `attack(uint256 gameId, address target)`. -/
def attack (st : State) (caller gameId target : Nat) : Except MafiaError State :=
  let game := st.games gameId
  if game.creator = 0 then .error .GameNotFound
  else if game.started = false then .error .GameNotStarted
  else
    let attackerIndex := st.playerIndex gameId caller
    if attackerIndex = 0 then .error .PlayerNotInGame
    else
      let attackerPosition := attackerIndex - 1
      if game.alive.getD attackerPosition false = false then .error .PlayerAlreadyDead
      else if game.roles.getD attackerPosition 0 ≠ 2 then .error .NotWerewolf
      else
        let targetIndex := st.playerIndex gameId target
        if targetIndex = 0 then .error .PlayerNotInGame
        else
          let targetPosition := targetIndex - 1
          if game.alive.getD targetPosition false = false then .error .PlayerAlreadyDead
          else if targetPosition = attackerPosition then .error .CannotAttackSelf
          else
            .ok { st with
                    games := Function.update st.games gameId
                      { game with alive := game.alive.set targetPosition false } }

/-- `getGameDetails(uint256 gameId)`. -/
def getGameDetails (st : State) (gameId : Nat) :
    Except MafiaError (Nat × List Nat × Bool × List Bool × Nat) :=
  let game := st.games gameId
  if game.creator = 0 then .error .GameNotFound
  else .ok (game.creator, game.players, game.started, game.alive, game.playerCount)

/-- `getPlayerEncryptedRole(uint256 gameId, address player)`. -/
def getPlayerEncryptedRole (st : State) (gameId player : Nat) :
    Except MafiaError Nat :=
  let game := st.games gameId
  if game.creator = 0 then .error .GameNotFound
  else if game.started = false then .error .GameNotStarted
  else
    let indexPlusOne := st.playerIndex gameId player
    if indexPlusOne = 0 then .error .PlayerNotInGame
    else .ok (game.encryptedRoles.getD (indexPlusOne - 1) 0)

/-- `getNextGameId()`. -/
def getNextGameId (st : State) : Nat :=
  st.nextGameId

/-- The counting loop of `getAlivePlayerCount`: seats that are both
occupied (non-zero address) and alive. -/
def aliveFold (players : List Nat) (alive : List Bool) : Nat :=
  (List.range 4).foldl
    (fun acc i =>
      if players.getD i 0 ≠ 0 ∧ alive.getD i false = true then acc + 1 else acc)
    0

/-- `getAlivePlayerCount(uint256 gameId)`. -/
def getAlivePlayerCount (st : State) (gameId : Nat) : Except MafiaError Nat :=
  let game := st.games gameId
  if game.creator = 0 then .error .GameNotFound
  else .ok (aliveFold game.players game.alive)

/-- `getPlayerStatus(uint256 gameId, address player)`. -/
def getPlayerStatus (st : State) (gameId player : Nat) :
    Except MafiaError Bool :=
  let game := st.games gameId
  if game.creator = 0 then .error .GameNotFound
  else
    let indexPlusOne := st.playerIndex gameId player
    if indexPlusOne = 0 then .error .PlayerNotInGame
    else .ok (game.alive.getD (indexPlusOne - 1) false)

/-- Success test for `Except` results. -/
def exceptOk {ε α : Type} : Except ε α → Bool
  | .ok _ => true
  | .error _ => false

/-- Error projection for `Except` results. -/
def exceptErr {ε α : Type} : Except ε α → Option ε
  | .ok _ => none
  | .error e => some e

/-- Modelled from the spec (reference definition for the refinement
claim about the shuffle, following the specification's words): "for
index `i` from 3 down to 1, pick `swapIndex = seed mod (i+1)`, swap
roles at `i` and `swapIndex`, then re-derive `seed` by hashing it
together with `i` before the next iteration". -/
def specFYLoop (H : Nat → Nat → Nat) : Nat → Nat → List Nat → List Nat
  | _, 0, r => r
  | seed, i + 1, r =>
      let swapIndex := seed % (i + 2)
      let r2 := listSwap r (i + 1) swapIndex
      let seed2 := H seed (i + 1)
      specFYLoop H seed2 i r2

/-- Modelled from the spec: the full reference shuffle, starting from
the canonical order Villager, Villager, Werewolf, Seer. -/
def specFisherYates (H : Nat → Nat → Nat) (seed : Nat) : List Nat :=
  specFYLoop H seed 3 [1, 1, 2, 3]

/-- First error whose (boolean) condition applies, from an ordered
list of condition-error pairs. -/
def firstApplicable : List (Bool × MafiaError) → Option MafiaError
  | [] => none
  | (cond, e) :: rest => if cond then some e else firstApplicable rest

/-- Modelled from the spec (reference definition for the error
precedence of `attack`): the first applicable error in the order
stated by the specification. -/
def attackErrorSpec (st : State) (caller gameId target : Nat) :
    Option MafiaError :=
  let game := st.games gameId
  let callerIdx := st.playerIndex gameId caller
  let targetIdx := st.playerIndex gameId target
  firstApplicable
    [(game.creator == 0, .GameNotFound),
     (!game.started, .GameNotStarted),
     (callerIdx == 0, .PlayerNotInGame),
     (!(game.alive.getD (callerIdx - 1) false), .PlayerAlreadyDead),
     (!(game.roles.getD (callerIdx - 1) 0 == 2), .NotWerewolf),
     (targetIdx == 0, .PlayerNotInGame),
     (!(game.alive.getD (targetIdx - 1) false), .PlayerAlreadyDead),
     ((targetIdx - 1) == (callerIdx - 1), .CannotAttackSelf)]

/-- A read-only call: one of the five view functions with its
explicit arguments. -/
inductive QueryCall where
  | details (gameId : Nat)
  | encRole (gameId player : Nat)
  | nextId
  | aliveCount (gameId : Nat)
  | status (gameId player : Nat)

/-- Result of a read-only call. -/
inductive QueryOut where
  | details : Except MafiaError (Nat × List Nat × Bool × List Bool × Nat) → QueryOut
  | encRole : Except MafiaError Nat → QueryOut
  | nextId : Nat → QueryOut
  | aliveCount : Except MafiaError Nat → QueryOut
  | status : Except MafiaError Bool → QueryOut

/-- Dispatch a read-only call.  `sender` is the transaction sender
(`msg.sender`), available to every external function; the view
functions of the contract never read it.  The returned state is the
post-call storage. -/
def runQuery (sender : Nat) (st : State) : QueryCall → State × QueryOut
  | .details g => (st, .details (getGameDetails st g))
  | .encRole g p => (st, .encRole (getPlayerEncryptedRole st g p))
  | .nextId => (st, .nextId (getNextGameId st))
  | .aliveCount g => (st, .aliveCount (getAlivePlayerCount st g))
  | .status g p => (st, .status (getPlayerStatus st g p))

/-- A state-mutating transaction: the external function called, its
caller, and (for `startGame`) the block environment values feeding
the randomness seed. -/
inductive Op where
  | create (caller : Nat)
  | join (caller gameId : Nat)
  | start (prevrandao timestamp caller gameId : Nat)
  | attackCall (caller gameId target : Nat)

/-- The `msg.sender` of a transaction. -/
def opCaller : Op → Nat
  | .create c => c
  | .join c _ => c
  | .start _ _ c _ => c
  | .attackCall c _ _ => c

/-- Whether a transaction is a `startGame` call. -/
def isStart : Op → Bool
  | .start _ _ _ _ => true
  | _ => false

/-- Whether a transaction is a `createGame` call. -/
def isCreate : Op → Bool
  | .create _ => true
  | _ => false

/-- Transactional semantics of a mutating call: a revert leaves the
storage unchanged. -/
def applyOp (H0 : Nat → Nat → Nat → Nat → Nat) (H : Nat → Nat → Nat)
    (st : State) : Op → State
  | .create c => (createGame st c).1
  | .join c g =>
      match joinGame st c g with
      | .ok st2 => st2
      | .error _ => st
  | .start pr ts c g =>
      match startGame H0 H pr ts st c g with
      | .ok st2 => st2
      | .error _ => st
  | .attackCall c g t =>
      match attack st c g t with
      | .ok st2 => st2
      | .error _ => st

/-- Reachable contract storage: the initial state, or any state
obtained from a reachable one by a transaction whose sender is not
the zero address (the EVM guarantees `msg.sender` is a real,
non-zero account). -/
inductive Reachable (H0 : Nat → Nat → Nat → Nat → Nat) (H : Nat → Nat → Nat) :
    State → Prop where
  | init : Reachable H0 H initialState
  | step (st : State) (op : Op) :
      Reachable H0 H st → opCaller op ≠ 0 → Reachable H0 H (applyOp H0 H st op)

/-- Constant hash stand-ins for concrete test traces. -/
def hz2 : Nat → Nat → Nat := fun _ _ => 0

/-- Constant hash stand-in (4-ary) for concrete test traces. -/
def hz4 : Nat → Nat → Nat → Nat → Nat := fun _ _ _ _ => 0

/-- Demo trace: player 1 creates game 0. -/
def stA : State := applyOp hz4 hz2 initialState (Op.create 1)

/-- Demo trace: player 2 joins. -/
def stB : State := applyOp hz4 hz2 stA (Op.join 2 0)

/-- Demo trace: player 3 joins. -/
def stC : State := applyOp hz4 hz2 stB (Op.join 3 0)

/-- Demo trace: player 4 joins; the lobby is full. -/
def stD : State := applyOp hz4 hz2 stC (Op.join 4 0)

/-- Demo trace: player 1 starts the game. -/
def stE : State := applyOp hz4 hz2 stD (Op.start 0 0 1 0)

/-- Demo trace: the werewolf (player 2, seat 1) attacks player 1. -/
def stF : State := applyOp hz4 hz2 stE (Op.attackCall 2 0 1)

/-- Well-formedness of one game record together with its player-index
map: list lengths fixed at 4, player count bounded, the index map and
the `players` array mutually consistent, absent games empty, and
started games full with a valid role permutation whose werewolf seat
is alive. -/
structure WFgame (pi : Nat → Nat) (g : Game) : Prop where
  lenPlayers : g.players.length = 4
  lenEnc : g.encryptedRoles.length = 4
  lenRoles : g.roles.length = 4
  lenAlive : g.alive.length = 4
  lenGrants : g.grants.length = 4
  pcLe : g.playerCount ≤ 4
  seatOf : ∀ a, pi a ≠ 0 →
    pi a ≤ g.playerCount ∧ g.players.getD (pi a - 1) 0 = a ∧ a ≠ 0
  seated : ∀ i, i < g.playerCount →
    g.players.getD i 0 ≠ 0 ∧ pi (g.players.getD i 0) = i + 1
  emptyGame : g.creator = 0 → g.playerCount = 0 ∧ g.started = false
  startedInv : g.started = true →
    g.playerCount = 4 ∧
    Multiset.ofList g.roles = ({1, 1, 2, 3} : Multiset Nat) ∧
    ∀ i, i < 4 → g.roles.getD i 0 = 2 → g.alive.getD i false = true

/-- Well-formedness of the whole storage: every game record is
well-formed and ids at or above the counter are untouched. -/
structure WFstate (st : State) : Prop where
  games : ∀ g, WFgame (st.playerIndex g) (st.games g)
  fresh : ∀ g, st.nextGameId ≤ g →
    st.games g = defaultGame ∧ ∀ a, st.playerIndex g a = 0

/-! ## Generic list helpers -/

theorem exists_len4 {α : Type} (l : List α) (h : l.length = 4) :
    ∃ a b c d, l = [a, b, c, d] := by
  match l, h with
  | [a, b, c, d], _ => exact ⟨a, b, c, d, rfl⟩

theorem getD_set_self {α : Type} (l : List α) (i : Nat) (x d : α)
    (h : i < l.length) : (l.set i x).getD i d = x := by
  induction l generalizing i with
  | nil => simp at h
  | cons a t ih =>
    cases i with
    | zero => rfl
    | succ n => exact ih n (by simpa using h)

theorem getD_set_ne {α : Type} (l : List α) (i j : Nat) (x d : α)
    (h : j ≠ i) : (l.set i x).getD j d = l.getD j d := by
  induction l generalizing i j with
  | nil => simp
  | cons a t ih =>
    cases i with
    | zero =>
      cases j with
      | zero => exact absurd rfl h
      | succ m => rfl
    | succ n =>
      cases j with
      | zero => rfl
      | succ m => exact ih n m (fun hmn => h (by omega))

/-! ## Shuffle lemmas -/

theorem listSwap_length (l : List Nat) (i j : Nat) :
    (listSwap l i j).length = l.length := by
  simp [listSwap]

theorem fyLoop_length (H : Nat → Nat → Nat) (n seed : Nat) (r : List Nat) :
    (fyLoop H seed n r).length = r.length := by
  induction n generalizing seed r with
  | zero => rfl
  | succ k ih => rw [fyLoop, ih, listSwap_length]

theorem fyLoop_three (H : Nat → Nat → Nat) (s : Nat) (r : List Nat) :
    fyLoop H s 3 r =
      listSwap (listSwap (listSwap r 3 (s % 4)) 2 (H s 3 % 3)) 1
        (H (H s 3) 2 % 2) := rfl

theorem swap3_multiset : ∀ a < 4, ∀ b < 3, ∀ c < 2,
    Multiset.ofList (listSwap (listSwap (listSwap [1, 1, 2, 3] 3 a) 2 b) 1 c) =
      ({1, 1, 2, 3} : Multiset Nat) := by decide

theorem fyLoop_multiset (H : Nat → Nat → Nat) (s : Nat) :
    Multiset.ofList (fyLoop H s 3 [1, 1, 2, 3]) = ({1, 1, 2, 3} : Multiset Nat) := by
  rw [fyLoop_three]
  exact swap3_multiset _ (Nat.mod_lt _ (by norm_num)) _
    (Nat.mod_lt _ (by norm_num)) _ (Nat.mod_lt _ (by norm_num))

theorem fyLoop_eq_spec (H : Nat → Nat → Nat) (n seed : Nat) (r : List Nat) :
    fyLoop H seed n r = specFYLoop H seed n r := by
  induction n generalizing seed r with
  | zero => rfl
  | succ k ih => rw [fyLoop, specFYLoop, ih]

theorem fyLoop_count_two (H : Nat → Nat → Nat) (s : Nat) :
    (fyLoop H s 3 [1, 1, 2, 3]).count 2 = 1 := by
  have h := fyLoop_multiset H s
  have h2 := congrArg (Multiset.count 2) h
  simpa [Multiset.insert_eq_cons] using h2

/-! ## Evaluation of the assignment and counting loops -/

theorem assignLoop_eval (game : Game) (r : List Nat)
    (hpl : game.players.length = 4) (hen : game.encryptedRoles.length = 4)
    (hro : game.roles.length = 4) (hal : game.alive.length = 4)
    (hgr : game.grants.length = 4) (hr : r.length = 4) :
    assignLoop game r =
      { game with
          roles := r
          encryptedRoles := r
          grants :=
            [[GrantTarget.contractSelf, GrantTarget.addr (game.players.getD 0 0)],
             [GrantTarget.contractSelf, GrantTarget.addr (game.players.getD 1 0)],
             [GrantTarget.contractSelf, GrantTarget.addr (game.players.getD 2 0)],
             [GrantTarget.contractSelf, GrantTarget.addr (game.players.getD 3 0)]]
          alive := [true, true, true, true] } := by
  obtain ⟨c, pl, en, ro, al, gr, pc, std⟩ := game
  simp only at hpl hen hro hal hgr
  obtain ⟨p0, p1, p2, p3, rfl⟩ := exists_len4 pl hpl
  obtain ⟨e0, e1, e2, e3, rfl⟩ := exists_len4 en hen
  obtain ⟨r0, r1, r2, r3, rfl⟩ := exists_len4 ro hro
  obtain ⟨a0, a1, a2, a3, rfl⟩ := exists_len4 al hal
  obtain ⟨g0, g1, g2, g3, rfl⟩ := exists_len4 gr hgr
  obtain ⟨x0, x1, x2, x3, rfl⟩ := exists_len4 r hr
  rfl

theorem aliveFold_eval (p0 p1 p2 p3 : Nat) (a0 a1 a2 a3 : Bool) :
    aliveFold [p0, p1, p2, p3] [a0, a1, a2, a3] =
      (if p0 ≠ 0 ∧ a0 = true then 1 else 0) +
      (if p1 ≠ 0 ∧ a1 = true then 1 else 0) +
      (if p2 ≠ 0 ∧ a2 = true then 1 else 0) +
      (if p3 ≠ 0 ∧ a3 = true then 1 else 0) := by
  simp only [aliveFold, List.range_succ, List.range_zero, List.nil_append,
    List.cons_append, List.foldl_cons, List.foldl_nil, List.getD_cons_zero,
    List.getD_cons_succ]
  split_ifs <;> omega

theorem aliveFold_set_false (p0 p1 p2 p3 : Nat) (a0 a1 a2 a3 : Bool)
    (t : Nat) (ht : t < 4)
    (hp : [p0, p1, p2, p3].getD t 0 ≠ 0)
    (ha : [a0, a1, a2, a3].getD t false = true) :
    aliveFold [p0, p1, p2, p3] ([a0, a1, a2, a3].set t false) + 1 =
      aliveFold [p0, p1, p2, p3] [a0, a1, a2, a3] := by
  interval_cases t <;>
    simp only [List.getD_cons_zero, List.getD_cons_succ,
      List.set] at hp ha ⊢ <;>
    rw [aliveFold_eval, aliveFold_eval] <;>
    simp [hp, ha] <;> omega

theorem aliveFold_pos (p0 p1 p2 p3 : Nat) (a0 a1 a2 a3 : Bool)
    (w : Nat) (hw : w < 4)
    (hp : [p0, p1, p2, p3].getD w 0 ≠ 0)
    (ha : [a0, a1, a2, a3].getD w false = true) :
    1 ≤ aliveFold [p0, p1, p2, p3] [a0, a1, a2, a3] := by
  interval_cases w <;>
    simp only [List.getD_cons_zero, List.getD_cons_succ] at hp ha <;>
    rw [aliveFold_eval] <;> simp [hp, ha] <;> omega

/-! ## Role-multiset helpers -/

theorem multiset_count_two {l : List Nat}
    (h : Multiset.ofList l = ({1, 1, 2, 3} : Multiset Nat)) :
    l.count 2 = 1 := by
  have h2 := congrArg (Multiset.count 2) h
  simpa [Multiset.insert_eq_cons] using h2

theorem multiset_len4 {l : List Nat}
    (h : Multiset.ofList l = ({1, 1, 2, 3} : Multiset Nat)) :
    l.length = 4 := by
  have h2 := congrArg Multiset.card h
  simpa using h2

theorem roles_unique_werewolf {l : List Nat}
    (h : Multiset.ofList l = ({1, 1, 2, 3} : Multiset Nat))
    {i j : Nat} (hi : i < 4) (hj : j < 4) (hne : i ≠ j)
    (h2 : l.getD i 0 = 2) : l.getD j 0 ≠ 2 := by
  have hlen := multiset_len4 h
  have hcnt := multiset_count_two h
  obtain ⟨r0, r1, r2, r3, rfl⟩ := exists_len4 l hlen
  intro h3
  interval_cases i <;> interval_cases j <;>
    simp only [List.getD_cons_zero, List.getD_cons_succ] at h2 h3 <;>
    subst h2 <;> simp_all [List.count_cons] <;> omega

/-! ## Success-shape lemmas for the mutating operations -/

theorem joinGame_ok_elim {st st' : State} {c g : Nat}
    (h : joinGame st c g = .ok st') :
    (st.games g).creator ≠ 0 ∧ (st.games g).started = false ∧
    (st.games g).playerCount < 4 ∧ st.playerIndex g c = 0 ∧
    st' = addPlayer st g c := by
  simp only [joinGame] at h
  split_ifs at h with h1 h2 h3 h4
  refine ⟨h1, ?_, by omega, not_not.mp h4, ?_⟩
  · cases hb : (st.games g).started
    · rfl
    · exact absurd hb h2
  · exact ((Except.ok.injEq _ _).mp h).symm

theorem startGame_ok_elim {H0 : Nat → Nat → Nat → Nat → Nat}
    {H : Nat → Nat → Nat} {pr ts : Nat} {st st' : State} {c g : Nat}
    (h : startGame H0 H pr ts st c g = .ok st') :
    (st.games g).creator ≠ 0 ∧ (st.games g).started = false ∧
    st.playerIndex g c ≠ 0 ∧ (st.games g).playerCount = 4 ∧
    st' = { st with
              games := Function.update st.games g
                { assignLoop (st.games g)
                    (fyLoop H (H0 pr ts c g) 3 [1, 1, 2, 3]) with
                  started := true } } := by
  simp only [startGame] at h
  split_ifs at h with h1 h2 h3 h4
  refine ⟨h1, ?_, h3, not_not.mp h4, ?_⟩
  · cases hb : (st.games g).started
    · rfl
    · exact absurd hb h2
  · exact ((Except.ok.injEq _ _).mp h).symm

theorem attack_ok_elim {st st' : State} {c g t : Nat}
    (h : attack st c g t = .ok st') :
    (st.games g).creator ≠ 0 ∧ (st.games g).started = true ∧
    st.playerIndex g c ≠ 0 ∧
    (st.games g).alive.getD (st.playerIndex g c - 1) false = true ∧
    (st.games g).roles.getD (st.playerIndex g c - 1) 0 = 2 ∧
    st.playerIndex g t ≠ 0 ∧
    (st.games g).alive.getD (st.playerIndex g t - 1) false = true ∧
    st.playerIndex g t - 1 ≠ st.playerIndex g c - 1 ∧
    st' = { st with
              games := Function.update st.games g
                { st.games g with
                    alive := (st.games g).alive.set
                      (st.playerIndex g t - 1) false } } := by
  simp only [attack] at h
  split_ifs at h with h1 h2 h3 h4 h5 h6 h7 h8
  refine ⟨h1, ?_, h3, ?_, not_not.mp h5, h6, ?_, h8, ?_⟩
  · cases hb : (st.games g).started
    · exact absurd hb h2
    · rfl
  · cases hb : (st.games g).alive.getD (st.playerIndex g c - 1) false
    · exact absurd hb h4
    · rfl
  · cases hb : (st.games g).alive.getD (st.playerIndex g t - 1) false
    · exact absurd hb h7
    · rfl
  · exact ((Except.ok.injEq _ _).mp h).symm

/-! ## State-shape lemmas for `addPlayer` -/

theorem addPlayer_games_self (st : State) (gid c : Nat) :
    (addPlayer st gid c).games gid =
      { st.games gid with
          players := (st.games gid).players.set (st.games gid).playerCount c
          playerCount := (st.games gid).playerCount + 1
          alive := (st.games gid).alive.set (st.games gid).playerCount true } := by
  simp [addPlayer, Function.update_same]

theorem addPlayer_games_other (st : State) (gid c x : Nat) (hx : x ≠ gid) :
    (addPlayer st gid c).games x = st.games x := by
  simp [addPlayer, Function.update_noteq hx]

theorem addPlayer_pi (st : State) (gid c g a : Nat) :
    (addPlayer st gid c).playerIndex g a =
      if g = gid ∧ a = c then (st.games gid).playerCount + 1
      else st.playerIndex g a := rfl

theorem addPlayer_nextGameId (st : State) (gid c : Nat) :
    (addPlayer st gid c).nextGameId = st.nextGameId := rfl

/-! ## Preservation of well-formedness -/

theorem wf_default : WFgame (fun _ => 0) defaultGame := by
  refine ⟨rfl, rfl, rfl, rfl, rfl, by decide, ?_, ?_, ?_, ?_⟩
  · intro a ha; exact absurd rfl ha
  · intro i hi; simp [defaultGame] at hi
  · intro _; exact ⟨rfl, rfl⟩
  · intro h; exact absurd h (by simp [defaultGame])

theorem wf_initial : WFstate initialState :=
  ⟨fun _ => wf_default, fun _ _ => ⟨rfl, fun _ => rfl⟩⟩

theorem wf_game_addSeat (pi : Nat → Nat) (g : Game) (c : Nat)
    (hw : WFgame pi g) (hc : c ≠ 0) (hcr : g.creator ≠ 0)
    (hnot : pi c = 0) (hpc : g.playerCount < 4) :
    WFgame (fun a => if a = c then g.playerCount + 1 else pi a)
      { g with
          players := g.players.set g.playerCount c
          playerCount := g.playerCount + 1
          alive := g.alive.set g.playerCount true } := by
  have hplen : g.playerCount < g.players.length := by
    rw [hw.lenPlayers]; exact hpc
  constructor
  · dsimp only; rw [List.length_set]; exact hw.lenPlayers
  · exact hw.lenEnc
  · exact hw.lenRoles
  · dsimp only; rw [List.length_set]; exact hw.lenAlive
  · exact hw.lenGrants
  · dsimp only; omega
  · intro a ha
    dsimp only at ha ⊢
    by_cases hac : a = c
    · rw [if_pos hac] at ha ⊢
      subst hac
      refine ⟨le_refl _, ?_, hc⟩
      simpa using getD_set_self g.players g.playerCount a 0 hplen
    · rw [if_neg hac] at ha ⊢
      obtain ⟨h1, h2, h3⟩ := hw.seatOf a ha
      have hlt : pi a - 1 ≠ g.playerCount := by
        have : 1 ≤ pi a := Nat.one_le_iff_ne_zero.mpr ha
        omega
      refine ⟨Nat.le_succ_of_le h1, ?_, h3⟩
      rw [getD_set_ne _ _ _ _ _ hlt]
      exact h2
  · intro i hi
    dsimp only at hi ⊢
    by_cases hip : i = g.playerCount
    · subst hip
      rw [getD_set_self g.players g.playerCount c 0 hplen]
      exact ⟨hc, by rw [if_pos rfl]⟩
    · have hilt : i < g.playerCount := by omega
      rw [getD_set_ne _ _ _ _ _ hip]
      obtain ⟨h1, h2⟩ := hw.seated i hilt
      have hne : g.players.getD i 0 ≠ c := by
        intro hh
        rw [hh, hnot] at h2
        omega
      rw [if_neg hne]
      exact ⟨h1, h2⟩
  · intro h
    exact absurd h hcr
  · intro hs
    dsimp only at hs
    have := (hw.startedInv hs).1
    omega

theorem wf_addPlayer (st : State) (gid c : Nat) (hwf : WFstate st)
    (hc : c ≠ 0) (hcr : (st.games gid).creator ≠ 0)
    (hnot : st.playerIndex gid c = 0)
    (hpc : (st.games gid).playerCount < 4) :
    WFstate (addPlayer st gid c) := by
  obtain ⟨hg, hf⟩ := hwf
  constructor
  · intro x
    by_cases hx : x = gid
    · rw [hx, addPlayer_games_self]
      have hpi : (addPlayer st gid c).playerIndex gid =
          fun a => if a = c then (st.games gid).playerCount + 1
                   else st.playerIndex gid a := by
        funext a
        rw [addPlayer_pi]
        by_cases hac : a = c
        · rw [if_pos ⟨rfl, hac⟩, if_pos hac]
        · rw [if_neg (fun hh => hac hh.2), if_neg hac]
      rw [hpi]
      exact wf_game_addSeat (st.playerIndex gid) (st.games gid) c (hg gid)
        hc hcr hnot hpc
    · have hpi : (addPlayer st gid c).playerIndex x = st.playerIndex x :=
        funext fun a => by rw [addPlayer_pi, if_neg (fun hh => hx hh.1)]
      rw [hpi, addPlayer_games_other st gid c x hx]
      exact hg x
  · intro g hgn
    rw [addPlayer_nextGameId] at hgn
    have hx : g ≠ gid := by
      intro hh
      rw [hh] at hgn
      have := (hf gid hgn).1
      rw [this] at hcr
      exact hcr rfl
    rw [addPlayer_games_other st gid c g hx]
    refine ⟨(hf g hgn).1, fun a => ?_⟩
    rw [addPlayer_pi, if_neg (fun hh => hx hh.1)]
    exact (hf g hgn).2 a

theorem wf_createGame (st : State) (c : Nat) (hwf : WFstate st) (hc : c ≠ 0) :
    WFstate (createGame st c).1 := by
  obtain ⟨hg, hf⟩ := hwf
  have hdef : st.games st.nextGameId = defaultGame := (hf _ (le_refl _)).1
  have hpi0 : ∀ a, st.playerIndex st.nextGameId a = 0 := (hf _ (le_refl _)).2
  have hst2 : WFstate
      { st with
          nextGameId := st.nextGameId + 1
          games := Function.update st.games st.nextGameId
            { st.games st.nextGameId with creator := c } } := by
    constructor
    · intro x
      by_cases hx : x = st.nextGameId
      · rw [hx]
        dsimp only
        rw [Function.update_same, hdef]
        refine ⟨rfl, rfl, rfl, rfl, rfl, by norm_num [defaultGame], ?_, ?_, ?_, ?_⟩
        · intro a ha; exact absurd (hpi0 a) ha
        · intro i hi; simp [defaultGame] at hi
        · intro h; exact absurd h hc
        · intro h; simp [defaultGame] at h
      · dsimp only
        rw [Function.update_noteq hx]
        exact hg x
    · intro g hgn
      dsimp only at hgn ⊢
      have hx : g ≠ st.nextGameId := by omega
      rw [Function.update_noteq hx]
      exact ⟨(hf g (by omega)).1, (hf g (by omega)).2⟩
  show WFstate (addPlayer
    { st with
        nextGameId := st.nextGameId + 1
        games := Function.update st.games st.nextGameId
          { st.games st.nextGameId with creator := c } } st.nextGameId c)
  refine wf_addPlayer _ _ _ hst2 hc ?_ (hpi0 c) ?_
  · dsimp only
    rw [Function.update_same, hdef]
    exact hc
  · dsimp only
    rw [Function.update_same, hdef]
    norm_num [defaultGame]

theorem wf_joinGame (st st' : State) (c g : Nat) (hwf : WFstate st)
    (hc : c ≠ 0) (h : joinGame st c g = .ok st') : WFstate st' := by
  obtain ⟨h1, h2, h3, h4, rfl⟩ := joinGame_ok_elim h
  exact wf_addPlayer st g c hwf hc h1 h4 h3

theorem wf_startGame (H0 : Nat → Nat → Nat → Nat → Nat) (H : Nat → Nat → Nat)
    (pr ts : Nat) (st st' : State) (c g : Nat) (hwf : WFstate st)
    (h : startGame H0 H pr ts st c g = .ok st') : WFstate st' := by
  obtain ⟨hcr, hns, hpi, hpc, rfl⟩ := startGame_ok_elim h
  obtain ⟨hg, hf⟩ := hwf
  have hw := hg g
  have hsh : (fyLoop H (H0 pr ts c g) 3 [1, 1, 2, 3]).length = 4 := by
    rw [fyLoop_length]; rfl
  have hassign := assignLoop_eval (st.games g) _ hw.lenPlayers hw.lenEnc
    hw.lenRoles hw.lenAlive hw.lenGrants hsh
  constructor
  · intro x
    by_cases hx : x = g
    · rw [hx]
      dsimp only
      rw [Function.update_same, hassign]
      refine ⟨hw.lenPlayers, hsh, hsh, rfl, rfl, hw.pcLe, hw.seatOf,
        hw.seated, ?_, ?_⟩
      · intro h0; exact absurd h0 hcr
      · intro _
        refine ⟨hpc, fyLoop_multiset H (H0 pr ts c g), ?_⟩
        intro i hi _
        interval_cases i <;> rfl
    · dsimp only
      rw [Function.update_noteq hx]
      exact hg x
  · intro g2 hgn
    dsimp only at hgn ⊢
    have hx : g2 ≠ g := by
      intro hh
      rw [hh] at hgn
      have := (hf g hgn).1
      rw [this] at hcr
      exact hcr rfl
    rw [Function.update_noteq hx]
    exact hf g2 hgn

theorem wf_attack (st st' : State) (c g t : Nat) (hwf : WFstate st)
    (h : attack st c g t = .ok st') : WFstate st' := by
  obtain ⟨hcr, hs, hcpi, hca, hrole, htpi, hta, hposne, rfl⟩ := attack_ok_elim h
  obtain ⟨hg, hf⟩ := hwf
  have hw := hg g
  have hapos : st.playerIndex g c - 1 < 4 := by
    have h1 := (hw.seatOf c hcpi).1
    have h2 := hw.pcLe
    have h3 : 1 ≤ st.playerIndex g c := Nat.one_le_iff_ne_zero.mpr hcpi
    omega
  constructor
  · intro x
    by_cases hx : x = g
    · rw [hx]
      dsimp only
      rw [Function.update_same]
      refine ⟨hw.lenPlayers, hw.lenEnc, hw.lenRoles, ?_, hw.lenGrants,
        hw.pcLe, hw.seatOf, hw.seated, ?_, ?_⟩
      · dsimp only; rw [List.length_set]; exact hw.lenAlive
      · intro h0; exact absurd h0 hcr
      · intro _
        refine ⟨(hw.startedInv hs).1, (hw.startedInv hs).2.1, ?_⟩
        intro i hi hri
        dsimp only at hri ⊢
        by_cases hit : i = st.playerIndex g t - 1
        · exfalso
          have hmul := (hw.startedInv hs).2.1
          have := roles_unique_werewolf hmul hapos hi
            (by rw [hit]; omega) hrole
          exact this hri
        · rw [getD_set_ne _ _ _ _ _ hit]
          exact (hw.startedInv hs).2.2 i hi hri
    · dsimp only
      rw [Function.update_noteq hx]
      exact hg x
  · intro g2 hgn
    dsimp only at hgn ⊢
    have hx : g2 ≠ g := by
      intro hh
      rw [hh] at hgn
      have := (hf g hgn).1
      rw [this] at hcr
      exact hcr rfl
    rw [Function.update_noteq hx]
    exact hf g2 hgn

theorem wf_applyOp (H0 : Nat → Nat → Nat → Nat → Nat) (H : Nat → Nat → Nat)
    (st : State) (op : Op) (hwf : WFstate st) (hc : opCaller op ≠ 0) :
    WFstate (applyOp H0 H st op) := by
  cases op with
  | create c => exact wf_createGame st c hwf hc
  | join c g =>
      cases hres : joinGame st c g with
      | ok st2 => simpa [applyOp, hres] using wf_joinGame st st2 c g hwf hc hres
      | error e => simpa [applyOp, hres] using hwf
  | start pr ts c g =>
      cases hres : startGame H0 H pr ts st c g with
      | ok st2 =>
          simpa [applyOp, hres] using wf_startGame H0 H pr ts st st2 c g hwf hres
      | error e => simpa [applyOp, hres] using hwf
  | attackCall c g t =>
      cases hres : attack st c g t with
      | ok st2 => simpa [applyOp, hres] using wf_attack st st2 c g t hwf hres
      | error e => simpa [applyOp, hres] using hwf

theorem wf_reachable (H0 : Nat → Nat → Nat → Nat → Nat) (H : Nat → Nat → Nat)
    (st : State) (h : Reachable H0 H st) : WFstate st := by
  induction h with
  | init => exact wf_initial
  | step st2 op h2 hc ih => exact wf_applyOp H0 H st2 op ih hc

/-! ## Reachability of the demo trace -/

theorem reach_stA : Reachable hz4 hz2 stA :=
  Reachable.step initialState (Op.create 1) Reachable.init (by decide)

theorem reach_stB : Reachable hz4 hz2 stB :=
  Reachable.step stA (Op.join 2 0) reach_stA (by decide)

theorem reach_stC : Reachable hz4 hz2 stC :=
  Reachable.step stB (Op.join 3 0) reach_stB (by decide)

theorem reach_stD : Reachable hz4 hz2 stD :=
  Reachable.step stC (Op.join 4 0) reach_stC (by decide)

theorem reach_stE : Reachable hz4 hz2 stE :=
  Reachable.step stD (Op.start 0 0 1 0) reach_stD (by decide)

theorem reach_stF : Reachable hz4 hz2 stF :=
  Reachable.step stE (Op.attackCall 2 0 1) reach_stE (by decide)

/-! ## Field preservation across transactions -/

theorem addPlayer_fields (st : State) (gid c x : Nat) :
    ((addPlayer st gid c).games x).started = (st.games x).started ∧
    ((addPlayer st gid c).games x).grants = (st.games x).grants ∧
    ((addPlayer st gid c).games x).creator = (st.games x).creator := by
  by_cases hx : x = gid
  · rw [hx, addPlayer_games_self]
    exact ⟨rfl, rfl, rfl⟩
  · rw [addPlayer_games_other st gid c x hx]
    exact ⟨rfl, rfl, rfl⟩

theorem createGame_fields (st : State) (c x : Nat) :
    ((createGame st c).1.games x).started = (st.games x).started ∧
    ((createGame st c).1.games x).grants = (st.games x).grants := by
  show ((addPlayer
    { st with
        nextGameId := st.nextGameId + 1
        games := Function.update st.games st.nextGameId
          { st.games st.nextGameId with creator := c } } st.nextGameId c).games x).started = _ ∧ _
  obtain ⟨h1, h2, h3⟩ := addPlayer_fields
    { st with
        nextGameId := st.nextGameId + 1
        games := Function.update st.games st.nextGameId
          { st.games st.nextGameId with creator := c } } st.nextGameId c x
  constructor
  · refine h1.trans ?_
    by_cases hx : x = st.nextGameId
    · rw [hx]
      try dsimp only
      rw [Function.update_same]
    · try dsimp only
      rw [Function.update_noteq hx]
  · refine h2.trans ?_
    by_cases hx : x = st.nextGameId
    · rw [hx]
      try dsimp only
      rw [Function.update_same]
    · try dsimp only
      rw [Function.update_noteq hx]

theorem nonstart_fields (H0 : Nat → Nat → Nat → Nat → Nat) (H : Nat → Nat → Nat)
    (st : State) (op : Op) (hop : isStart op = false) (x : Nat) :
    ((applyOp H0 H st op).games x).started = (st.games x).started ∧
    ((applyOp H0 H st op).games x).grants = (st.games x).grants := by
  cases op with
  | create c => exact createGame_fields st c x
  | join c g =>
      cases hres : joinGame st c g with
      | ok st2 =>
          obtain ⟨_, _, _, _, rfl⟩ := joinGame_ok_elim hres
          have h := addPlayer_fields st g c x
          simpa [applyOp, hres] using ⟨h.1, h.2.1⟩
      | error e => simp [applyOp, hres]
  | start pr ts c g => simp [isStart] at hop
  | attackCall c g t =>
      cases hres : attack st c g t with
      | ok st2 =>
          obtain ⟨_, _, _, _, _, _, _, _, rfl⟩ := attack_ok_elim hres
          simp only [applyOp, hres]
          by_cases hx : x = g
          · rw [hx]
            try dsimp only
            rw [Function.update_same]
            exact ⟨rfl, rfl⟩
          · try dsimp only
            rw [Function.update_noteq hx]
            exact ⟨rfl, rfl⟩
      | error e => simp [applyOp, hres]

/-! ## Claim theorems -/

/-- C1: for every reachable game state and every possible randomness
seed (abstracted as the hash functions and block values), after a
successful `startGame` the four entries of `roles` form a permutation
of the multiset 1, 1, 2, 3 (Villager, Villager, Werewolf, Seer), and
in particular exactly one seat holds role code 2 (Werewolf). -/
theorem startGame_roles_multiset (H0 : Nat → Nat → Nat → Nat → Nat)
    (H : Nat → Nat → Nat) (pr ts : Nat) (st st' : State) (caller gid : Nat)
    (hr : Reachable H0 H st)
    (h : startGame H0 H pr ts st caller gid = .ok st') :
    Multiset.ofList (st'.games gid).roles = ({1, 1, 2, 3} : Multiset Nat) ∧
    (st'.games gid).roles.count 2 = 1 := by
  obtain ⟨hcr, hns, hpi, hpc, rfl⟩ := startGame_ok_elim h
  have hw := (wf_reachable H0 H st hr).games gid
  have hsh : (fyLoop H (H0 pr ts caller gid) 3 [1, 1, 2, 3]).length = 4 := by
    rw [fyLoop_length]; rfl
  have hassign := assignLoop_eval (st.games gid) _ hw.lenPlayers hw.lenEnc
    hw.lenRoles hw.lenAlive hw.lenGrants hsh
  dsimp only
  rw [Function.update_same, hassign]
  exact ⟨fyLoop_multiset H _, fyLoop_count_two H _⟩

/-- Witness for C1: the concrete demo game started with the constant
hash stand-ins. -/
theorem startGame_roles_multiset_witness :
    Multiset.ofList (stE.games 0).roles = ({1, 1, 2, 3} : Multiset Nat) ∧
    (stE.games 0).roles.count 2 = 1 :=
  startGame_roles_multiset hz4 hz2 0 0 stD stE 1 0 reach_stD (by rfl)

/-- C3: the shuffle of `startGame` refines the specification's
Fisher-Yates description: starting from the canonical order and the
seed derived by hashing block entropy, timestamp, caller and game id,
the stored role assignment equals the reference shuffle
`specFisherYates`, for every seed value. -/
theorem startGame_shuffle_refines_spec (H0 : Nat → Nat → Nat → Nat → Nat)
    (H : Nat → Nat → Nat) (pr ts : Nat) (st st' : State) (caller gid : Nat)
    (hr : Reachable H0 H st)
    (h : startGame H0 H pr ts st caller gid = .ok st') :
    (st'.games gid).roles = specFisherYates H (H0 pr ts caller gid) := by
  obtain ⟨hcr, hns, hpi, hpc, rfl⟩ := startGame_ok_elim h
  have hw := (wf_reachable H0 H st hr).games gid
  have hsh : (fyLoop H (H0 pr ts caller gid) 3 [1, 1, 2, 3]).length = 4 := by
    rw [fyLoop_length]; rfl
  have hassign := assignLoop_eval (st.games gid) _ hw.lenPlayers hw.lenEnc
    hw.lenRoles hw.lenAlive hw.lenGrants hsh
  dsimp only
  rw [Function.update_same, hassign]
  exact fyLoop_eq_spec H 3 (H0 pr ts caller gid) [1, 1, 2, 3]

/-- Witness for C3: the demo game's stored roles equal the reference
shuffle at the concrete seed. -/
theorem startGame_shuffle_refines_spec_witness :
    (stE.games 0).roles = specFisherYates hz2 (hz4 0 0 1 0) :=
  startGame_shuffle_refines_spec hz4 hz2 0 0 stD stE 1 0 reach_stD (by rfl)

/-- C2: a successful `startGame` grants decrypt access on each seat's
encrypted-role handle to exactly the contract itself and the address
seated there, and no other transaction kind ever touches the grant
sets (combined with C7, `startGame` succeeds at most once per game, so
no further grant is ever made on the handle). -/
theorem startGame_grants_exact (H0 : Nat → Nat → Nat → Nat → Nat)
    (H : Nat → Nat → Nat) (pr ts : Nat) (st st' : State) (caller gid : Nat)
    (hr : Reachable H0 H st)
    (h : startGame H0 H pr ts st caller gid = .ok st') :
    (∀ i, i < 4 → (st'.games gid).grants.getD i [] =
      [GrantTarget.contractSelf,
       GrantTarget.addr ((st.games gid).players.getD i 0)]) ∧
    (∀ st2 op, isStart op = false → ∀ x,
      ((applyOp H0 H st2 op).games x).grants = (st2.games x).grants) := by
  obtain ⟨hcr, hns, hpi, hpc, rfl⟩ := startGame_ok_elim h
  have hw := (wf_reachable H0 H st hr).games gid
  have hsh : (fyLoop H (H0 pr ts caller gid) 3 [1, 1, 2, 3]).length = 4 := by
    rw [fyLoop_length]; rfl
  have hassign := assignLoop_eval (st.games gid) _ hw.lenPlayers hw.lenEnc
    hw.lenRoles hw.lenAlive hw.lenGrants hsh
  constructor
  · intro i hi
    dsimp only
    rw [Function.update_same, hassign]
    interval_cases i <;> rfl
  · intro st2 op hop x
    exact (nonstart_fields H0 H st2 op hop x).2

/-- Witness for C2: seat 1 of the demo game is granted to the contract
and to player 2 only. -/
theorem startGame_grants_exact_witness :
    (stE.games 0).grants.getD 1 [] =
      [GrantTarget.contractSelf,
       GrantTarget.addr ((stD.games 0).players.getD 1 0)] :=
  (startGame_grants_exact hz4 hz2 0 0 stD stE 1 0 reach_stD (by rfl)).1 1
    (by norm_num)

/-- C4: a successful `attack` on a reachable state kills exactly the
target seat: the alive count drops by exactly one, the target's status
becomes false, every other address's status is unchanged, and the
players, roles, encrypted roles, grants, player count, started flag,
creator, all other games, the player index and the game counter are
all untouched. -/
theorem attack_frame (H0 : Nat → Nat → Nat → Nat → Nat) (H : Nat → Nat → Nat)
    (st st' : State) (caller gid target : Nat)
    (hr : Reachable H0 H st)
    (h : attack st caller gid target = .ok st') :
    (∀ n, getAlivePlayerCount st gid = .ok n →
       getAlivePlayerCount st' gid = .ok (n - 1) ∧ 1 ≤ n) ∧
    getPlayerStatus st' gid target = .ok false ∧
    (∀ a, a ≠ target → getPlayerStatus st' gid a = getPlayerStatus st gid a) ∧
    (st'.games gid).players = (st.games gid).players ∧
    (st'.games gid).roles = (st.games gid).roles ∧
    (st'.games gid).encryptedRoles = (st.games gid).encryptedRoles ∧
    (st'.games gid).grants = (st.games gid).grants ∧
    (st'.games gid).playerCount = (st.games gid).playerCount ∧
    (st'.games gid).started = (st.games gid).started ∧
    (st'.games gid).creator = (st.games gid).creator ∧
    (∀ g2, g2 ≠ gid → st'.games g2 = st.games g2) ∧
    st'.playerIndex = st.playerIndex ∧
    st'.nextGameId = st.nextGameId := by
  have hwf := wf_reachable H0 H st hr
  obtain ⟨hcr, hs, hcpi, hca, hrole, htpi, hta, hposne, rfl⟩ := attack_ok_elim h
  have hw := hwf.games gid
  obtain ⟨htle, hpt, ht0⟩ := hw.seatOf target htpi
  have htge : 1 ≤ st.playerIndex gid target := Nat.one_le_iff_ne_zero.mpr htpi
  have hpcle := hw.pcLe
  have htlt : st.playerIndex gid target - 1 < 4 := by omega
  refine ⟨?_, ?_, ?_, ?_, ?_, ?_, ?_, ?_, ?_, ?_, ?_, rfl, rfl⟩
  · intro n hn
    simp only [getAlivePlayerCount] at hn ⊢
    rw [if_neg hcr] at hn
    have hn2 : aliveFold (st.games gid).players (st.games gid).alive = n :=
      (Except.ok.injEq _ _).mp hn
    rw [Function.update_same]
    dsimp only
    rw [if_neg hcr]
    obtain ⟨p0, p1, p2, p3, hpl⟩ := exists_len4 (st.games gid).players hw.lenPlayers
    obtain ⟨a0, a1, a2, a3, hal⟩ := exists_len4 (st.games gid).alive hw.lenAlive
    rw [hpl, hal] at hn2
    rw [hpl] at hpt
    rw [hal] at hta
    rw [hpl, hal]
    have hdec := aliveFold_set_false p0 p1 p2 p3 a0 a1 a2 a3
      (st.playerIndex gid target - 1) htlt (by rw [hpt]; exact ht0) hta
    have hpost : aliveFold [p0, p1, p2, p3]
        ([a0, a1, a2, a3].set (st.playerIndex gid target - 1) false) = n - 1 := by
      omega
    rw [hpost]
    exact ⟨rfl, by omega⟩
  · simp only [getPlayerStatus]
    rw [Function.update_same]
    dsimp only
    rw [if_neg hcr, if_neg htpi]
    rw [getD_set_self (st.games gid).alive (st.playerIndex gid target - 1)
      false false (by rw [hw.lenAlive]; exact htlt)]
  · intro a hat
    simp only [getPlayerStatus]
    rw [Function.update_same]
    dsimp only
    rw [if_neg hcr, if_neg hcr]
    by_cases hpa : st.playerIndex gid a = 0
    · rw [if_pos hpa, if_pos hpa]
    · rw [if_neg hpa, if_neg hpa]
      have hne : st.playerIndex gid a - 1 ≠ st.playerIndex gid target - 1 := by
        intro hh
        obtain ⟨_, hpa2, _⟩ := hw.seatOf a hpa
        rw [hh, hpt] at hpa2
        exact hat hpa2.symm
      rw [getD_set_ne _ _ _ _ _ hne]
  · dsimp only
    rw [Function.update_same]
  · dsimp only
    rw [Function.update_same]
  · dsimp only
    rw [Function.update_same]
  · dsimp only
    rw [Function.update_same]
  · dsimp only
    rw [Function.update_same]
  · dsimp only
    rw [Function.update_same]
  · dsimp only
    rw [Function.update_same]
  · intro g2 hg2
    show Function.update st.games gid _ g2 = st.games g2
    exact Function.update_noteq hg2 _ _

/-- Witness for C4: after the demo attack, the target is dead. -/
theorem attack_frame_witness :
    getPlayerStatus stF 0 1 = .ok false :=
  (attack_frame hz4 hz2 stE stF 2 0 1 reach_stE (by rfl)).2.1

/-- The code's `attack` produces exactly the first applicable error of
the specification's ordered list. -/
theorem attack_spec_eq (st : State) (c g t : Nat) :
    exceptErr (attack st c g t) = attackErrorSpec st c g t := by
  by_cases h1 : (st.games g).creator = 0
  · simp [attack, attackErrorSpec, firstApplicable, exceptErr, -List.getD_eq_getElem?_getD, h1]
  · by_cases h2 : (st.games g).started = true
    · by_cases h3 : st.playerIndex g c = 0
      · simp [attack, attackErrorSpec, firstApplicable, exceptErr, -List.getD_eq_getElem?_getD, h1, h2, h3]
      · by_cases h4 : (st.games g).alive.getD (st.playerIndex g c - 1) false = true
        · by_cases h5 : (st.games g).roles.getD (st.playerIndex g c - 1) 0 = 2
          · by_cases h6 : st.playerIndex g t = 0
            · simp [attack, attackErrorSpec, firstApplicable, exceptErr, -List.getD_eq_getElem?_getD,
                h1, h2, h3, h4, h5, h6]
            · by_cases h7 :
                  (st.games g).alive.getD (st.playerIndex g t - 1) false = true
              · by_cases h8 :
                    st.playerIndex g t - 1 = st.playerIndex g c - 1
                · simp [attack, attackErrorSpec, firstApplicable, exceptErr, -List.getD_eq_getElem?_getD,
                    h1, h2, h3, h4, h5, h6, h7, h8]
                · simp [attack, attackErrorSpec, firstApplicable, exceptErr, -List.getD_eq_getElem?_getD,
                    h1, h2, h3, h4, h5, h6, h7, h8]
              · simp [attack, attackErrorSpec, firstApplicable, exceptErr, -List.getD_eq_getElem?_getD,
                  h1, h2, h3, h4, h5, h6, h7]
          · simp [attack, attackErrorSpec, firstApplicable, exceptErr, -List.getD_eq_getElem?_getD,
              h1, h2, h3, h4, h5]
        · simp [attack, attackErrorSpec, firstApplicable, exceptErr, -List.getD_eq_getElem?_getD,
            h1, h2, h3, h4]
    · simp [attack, attackErrorSpec, firstApplicable, exceptErr, -List.getD_eq_getElem?_getD, h1, h2]

/-- C5: `attack` fails with exactly the first applicable error of the
specification's ordered precedence list, and any failure leaves the
state completely unchanged (all-or-nothing). -/
theorem attack_error_first_applicable (H0 : Nat → Nat → Nat → Nat → Nat)
    (H : Nat → Nat → Nat) (st : State) (caller gid target : Nat) :
    (∀ e, attack st caller gid target = .error e ↔
       attackErrorSpec st caller gid target = some e) ∧
    (attackErrorSpec st caller gid target = none ↔
       exceptOk (attack st caller gid target) = true) ∧
    (∀ e, attack st caller gid target = .error e →
       applyOp H0 H st (Op.attackCall caller gid target) = st) := by
  refine ⟨?_, ?_, ?_⟩
  · intro e
    rw [← attack_spec_eq st caller gid target]
    cases hres : attack st caller gid target with
    | ok s => simp [exceptErr]
    | error e2 => simp [exceptErr]
  · rw [← attack_spec_eq st caller gid target]
    cases hres : attack st caller gid target with
    | ok s => simp [exceptErr, exceptOk]
    | error e2 => simp [exceptErr, exceptOk]
  · intro e he
    simp [applyOp, he]

/-- Witness for C5: a non-werewolf caller in the demo game is rejected
with exactly `NotWerewolf` by the specification's precedence list. -/
theorem attack_error_first_applicable_witness :
    attackErrorSpec stE 1 0 2 = some MafiaError.NotWerewolf :=
  ((attack_error_first_applicable hz4 hz2 stE 1 0 2).1
    MafiaError.NotWerewolf).mp (by rfl)

/-- C6 counterexample: player 1 is seated in the full (unstarted) demo
game, yet their duplicate `joinGame` fails with `GameFull`, not
`PlayerAlreadyJoined` — the claim's "regardless of the game's state"
is false because the `GameAlreadyStarted` and `GameFull` guards run
first. -/
theorem joinGame_seated_counterexample :
    stD.playerIndex 0 1 ≠ 0 ∧
    joinGame stD 1 0 = Except.error MafiaError.GameFull ∧
    MafiaError.GameFull ≠ MafiaError.PlayerAlreadyJoined :=
  ⟨by decide, by rfl, by decide⟩

/-- C6 (amended): a duplicate `joinGame` by a seated address always
fails; on a started game it fails `GameAlreadyStarted`, on a full
unstarted game it fails `GameFull`, and it fails with
`PlayerAlreadyJoined` exactly when the game is not started and has
fewer than 4 players (the earlier guards fire first otherwise). -/
theorem joinGame_seated_amended (H0 : Nat → Nat → Nat → Nat → Nat)
    (H : Nat → Nat → Nat) (st : State) (caller gid : Nat)
    (hr : Reachable H0 H st) (hs : st.playerIndex gid caller ≠ 0) :
    exceptOk (joinGame st caller gid) = false ∧
    ((st.games gid).started = true →
      joinGame st caller gid = .error .GameAlreadyStarted) ∧
    ((st.games gid).started = false → 4 ≤ (st.games gid).playerCount →
      joinGame st caller gid = .error .GameFull) ∧
    ((st.games gid).started = false → (st.games gid).playerCount < 4 →
      joinGame st caller gid = .error .PlayerAlreadyJoined) ∧
    (joinGame st caller gid = .error .PlayerAlreadyJoined →
      (st.games gid).started = false ∧ (st.games gid).playerCount < 4) := by
  have hw := (wf_reachable H0 H st hr).games gid
  have hcr : (st.games gid).creator ≠ 0 := by
    intro h0
    have hpc0 := (hw.emptyGame h0).1
    have h1 := (hw.seatOf caller hs).1
    have h2 : 1 ≤ st.playerIndex gid caller := Nat.one_le_iff_ne_zero.mpr hs
    omega
  refine ⟨?_, ?_, ?_, ?_, ?_⟩
  · simp only [joinGame]
    rw [if_neg hcr]
    by_cases h2 : (st.games gid).started
    · rw [if_pos h2]; rfl
    · rw [if_neg h2]
      by_cases h3 : (st.games gid).playerCount ≥ 4
      · rw [if_pos h3]; rfl
      · rw [if_neg h3, if_pos hs]; rfl
  · intro hst
    simp only [joinGame]
    rw [if_neg hcr, if_pos hst]
  · intro hns hfull
    simp only [joinGame]
    rw [if_neg hcr, if_neg (by simp [hns]), if_pos hfull]
  · intro hns hpc
    simp only [joinGame]
    rw [if_neg hcr, if_neg (by simp [hns]), if_neg (by omega), if_pos hs]
  · intro he
    by_cases hst : (st.games gid).started
    · exfalso
      simp only [joinGame] at he
      rw [if_neg hcr, if_pos hst] at he
      simp at he
    · have hb : (st.games gid).started = false := by
        cases hq : (st.games gid).started
        · rfl
        · exact absurd hq hst
      by_cases hfull : (st.games gid).playerCount ≥ 4
      · exfalso
        simp only [joinGame] at he
        rw [if_neg hcr, if_neg (by simp [hb]), if_pos hfull] at he
        simp at he
      · exact ⟨hb, by omega⟩

/-- Witness for C6 (amended): a seated player re-joining the
three-player demo lobby gets `PlayerAlreadyJoined`, re-joining the
full lobby gets `GameFull`, and re-joining the started game gets
`GameAlreadyStarted`. -/
theorem joinGame_seated_amended_witness :
    joinGame stC 2 0 = .error .PlayerAlreadyJoined ∧
    joinGame stD 1 0 = .error .GameFull ∧
    joinGame stE 3 0 = .error .GameAlreadyStarted :=
  ⟨(joinGame_seated_amended hz4 hz2 stC 2 0 reach_stC (by decide)).2.2.2.1
     (by decide) (by decide),
   (joinGame_seated_amended hz4 hz2 stD 1 0 reach_stD (by decide)).2.2.1
     (by decide) (by decide),
   (joinGame_seated_amended hz4 hz2 stE 3 0 reach_stE (by decide)).2.1
     (by decide)⟩

/-- C7: the `started` flag of a game flips from false to true only in
a step whose pre-state has `playerCount = 4`, never flips back, a
successful `startGame` requires a not-yet-started game, every
`startGame` on a started reachable game fails with
`GameAlreadyStarted`, and `startGame` by a seated caller on a
reachable game with fewer than 4 players fails with `GameNotReady` —
so `startGame` succeeds at most once per game. -/
theorem started_monotone_once (H0 : Nat → Nat → Nat → Nat → Nat)
    (H : Nat → Nat → Nat) :
    (∀ st op x, (st.games x).started = false →
       ((applyOp H0 H st op).games x).started = true →
       (st.games x).playerCount = 4) ∧
    (∀ st op x, (st.games x).started = true →
       ((applyOp H0 H st op).games x).started = true) ∧
    (∀ pr ts st st2 c g, startGame H0 H pr ts st c g = .ok st2 →
       (st.games g).started = false) ∧
    (∀ st, Reachable H0 H st → ∀ g, (st.games g).started = true →
       ∀ pr ts c, startGame H0 H pr ts st c g = .error .GameAlreadyStarted) ∧
    (∀ st, Reachable H0 H st → ∀ g c, st.playerIndex g c ≠ 0 →
       (st.games g).playerCount < 4 →
       ∀ pr ts, startGame H0 H pr ts st c g = .error .GameNotReady) := by
  have hstart : ∀ pr ts st (st2 : State) c g x,
      startGame H0 H pr ts st c g = .ok st2 →
      (st2.games x).started = true ∨ st2.games x = st.games x := by
    intro pr ts st st2 c g x h
    obtain ⟨hcr, hns, hpi, hpc, rfl⟩ := startGame_ok_elim h
    by_cases hx : x = g
    · left
      rw [hx]
      dsimp only
      rw [Function.update_same]
    · right
      dsimp only
      rw [Function.update_noteq hx]
  refine ⟨?_, ?_, ?_, ?_, ?_⟩
  · intro st op x hsf hst
    cases hop : isStart op with
    | false =>
        rw [(nonstart_fields H0 H st op hop x).1] at hst
        rw [hsf] at hst
        exact absurd hst (by decide)
    | true =>
        cases op with
        | start pr ts c g =>
            cases hres : startGame H0 H pr ts st c g with
            | ok st2 =>
                obtain ⟨hcr, hns, hpi, hpc, hshape⟩ := startGame_ok_elim hres
                by_cases hx : x = g
                · rw [hx]; exact hpc
                · rw [hshape] at hres
                  simp only [applyOp, hres] at hst
                  rw [Function.update_noteq hx] at hst
                  rw [hsf] at hst
                  exact absurd hst (by decide)
            | error e =>
                simp only [applyOp, hres] at hst
                rw [hsf] at hst
                exact absurd hst (by decide)
        | create c => simp [isStart] at hop
        | join c g => simp [isStart] at hop
        | attackCall c g t => simp [isStart] at hop
  · intro st op x hst
    cases hop : isStart op with
    | false => rw [(nonstart_fields H0 H st op hop x).1]; exact hst
    | true =>
        cases op with
        | start pr ts c g =>
            cases hres : startGame H0 H pr ts st c g with
            | ok st2 =>
                simp only [applyOp, hres]
                rcases hstart pr ts st st2 c g x hres with h | h
                · exact h
                · rw [h]; exact hst
            | error e => simp only [applyOp, hres]; exact hst
        | create c => simp [isStart] at hop
        | join c g => simp [isStart] at hop
        | attackCall c g t => simp [isStart] at hop
  · intro pr ts st st2 c g h
    exact (startGame_ok_elim h).2.1
  · intro st hr g hs pr ts c
    have hw := (wf_reachable H0 H st hr).games g
    have hcr : (st.games g).creator ≠ 0 := by
      intro h0
      rw [(hw.emptyGame h0).2] at hs
      exact absurd hs (by decide)
    simp only [startGame]
    rw [if_neg hcr, if_pos hs]
  · intro st hr g c hpi hpc pr ts
    have hw := (wf_reachable H0 H st hr).games g
    have hcr : (st.games g).creator ≠ 0 := by
      intro h0
      have hpc0 := (hw.emptyGame h0).1
      have h1 := (hw.seatOf c hpi).1
      have h2 : 1 ≤ st.playerIndex g c := Nat.one_le_iff_ne_zero.mpr hpi
      omega
    have hns : ¬((st.games g).started = true) := by
      intro hs
      have := (hw.startedInv hs).1
      omega
    simp only [startGame]
    rw [if_neg hcr, if_neg hns, if_neg (by simpa using hpi), if_pos (by omega)]

/-- Witness for C7: restarting the started demo game fails with
`GameAlreadyStarted`, and starting the two-player lobby fails with
`GameNotReady`. -/
theorem started_monotone_once_witness :
    startGame hz4 hz2 5 7 stE 1 0 = .error .GameAlreadyStarted ∧
    startGame hz4 hz2 5 7 stB 1 0 = .error .GameNotReady :=
  ⟨(started_monotone_once hz4 hz2).2.2.2.1 stE reach_stE 0 (by decide) 5 7 1,
   (started_monotone_once hz4 hz2).2.2.2.2 stB reach_stB 0 1 (by decide)
     (by decide) 5 7⟩

/-- C8: `createGame` never fails (the embedding is total), returns the
current counter value as the new id, increments the counter by exactly
one (and no other operation kind changes the counter, so
`getNextGameId` always equals the number of games created), and
initializes the new game with the caller as creator, seated at seat 0,
`playerCount = 1` and `started = false`. -/
theorem createGame_spec (H0 : Nat → Nat → Nat → Nat → Nat)
    (H : Nat → Nat → Nat) (st : State) (caller : Nat)
    (hr : Reachable H0 H st) :
    (createGame st caller).2 = getNextGameId st ∧
    getNextGameId (createGame st caller).1 = getNextGameId st + 1 ∧
    (createGame st caller).1.games st.nextGameId =
      { creator := caller, players := [caller, 0, 0, 0],
        encryptedRoles := [0, 0, 0, 0], roles := [0, 0, 0, 0],
        alive := [true, false, false, false], grants := [[], [], [], []],
        playerCount := 1, started := false } ∧
    (createGame st caller).1.playerIndex st.nextGameId caller = 1 ∧
    (∀ g2, g2 ≠ st.nextGameId →
      (createGame st caller).1.games g2 = st.games g2) ∧
    (∀ st2 op, isCreate op = false →
      (applyOp H0 H st2 op).nextGameId = st2.nextGameId) := by
  have hdef : st.games st.nextGameId = defaultGame :=
    ((wf_reachable H0 H st hr).fresh st.nextGameId (le_refl _)).1
  have hup : Function.update st.games st.nextGameId
      { st.games st.nextGameId with creator := caller } st.nextGameId =
      { st.games st.nextGameId with creator := caller } :=
    Function.update_same _ _ _
  refine ⟨rfl, rfl, ?_, ?_, ?_, ?_⟩
  · show (addPlayer
      { st with
          nextGameId := st.nextGameId + 1
          games := Function.update st.games st.nextGameId
            { st.games st.nextGameId with creator := caller } }
      st.nextGameId caller).games st.nextGameId = _
    rw [addPlayer_games_self]
    dsimp only
    rw [hup, hdef]
    rfl
  · show (addPlayer
      { st with
          nextGameId := st.nextGameId + 1
          games := Function.update st.games st.nextGameId
            { st.games st.nextGameId with creator := caller } }
      st.nextGameId caller).playerIndex st.nextGameId caller = 1
    rw [addPlayer_pi, if_pos ⟨rfl, rfl⟩]
    dsimp only
    rw [hup, hdef]
    rfl
  · intro g2 hg2
    show (addPlayer
      { st with
          nextGameId := st.nextGameId + 1
          games := Function.update st.games st.nextGameId
            { st.games st.nextGameId with creator := caller } }
      st.nextGameId caller).games g2 = st.games g2
    rw [addPlayer_games_other _ _ _ _ hg2]
    dsimp only
    rw [Function.update_noteq hg2]
  · intro st2 op hop
    cases op with
    | create c => simp [isCreate] at hop
    | join c g =>
        cases hres : joinGame st2 c g with
        | ok st3 =>
            obtain ⟨_, _, _, _, rfl⟩ := joinGame_ok_elim hres
            simp only [applyOp, hres]
            exact addPlayer_nextGameId st2 g c
        | error e => simp [applyOp, hres]
    | start pr ts c g =>
        cases hres : startGame H0 H pr ts st2 c g with
        | ok st3 =>
            obtain ⟨_, _, _, _, rfl⟩ := startGame_ok_elim hres
            simp only [applyOp, hres]
        | error e => simp [applyOp, hres]
    | attackCall c g t =>
        cases hres : attack st2 c g t with
        | ok st3 =>
            obtain ⟨_, _, _, _, _, _, _, _, rfl⟩ := attack_ok_elim hres
            simp only [applyOp, hres]
        | error e => simp [applyOp, hres]

/-- Witness for C8: creating a game on the demo lobby state. -/
theorem createGame_spec_witness :
    (createGame stB 9).2 = getNextGameId stB ∧
    getNextGameId (createGame stB 9).1 = getNextGameId stB + 1 :=
  ⟨(createGame_spec hz4 hz2 stB 9 reach_stB).1,
   (createGame_spec hz4 hz2 stB 9 reach_stB).2.1⟩

/-- C9: every read-only operation is independent of the transaction
sender — two calls with the same explicit arguments in the same state
agree for every pair of senders — and no query changes the storage. -/
theorem queries_caller_independent :
    ∀ s1 s2 st q, runQuery s1 st q = runQuery s2 st q ∧
      (runQuery s1 st q).1 = st := by
  intro s1 s2 st q
  cases q <;> exact ⟨rfl, rfl⟩

/-- C10: in every reachable started game the werewolf seat is alive
(the role-2 seat can never be killed, since only the werewolf may
attack and self-attacks are rejected), so the alive player count of a
started game is always at least 1. -/
theorem werewolf_alive_invariant (H0 : Nat → Nat → Nat → Nat → Nat)
    (H : Nat → Nat → Nat) (st : State) (hr : Reachable H0 H st)
    (gid : Nat) (hs : (st.games gid).started = true) :
    (∀ i, i < 4 → (st.games gid).roles.getD i 0 = 2 →
       (st.games gid).alive.getD i false = true) ∧
    exceptOk (getAlivePlayerCount st gid) = true ∧
    (∀ n, getAlivePlayerCount st gid = .ok n → 1 ≤ n) := by
  have hw := (wf_reachable H0 H st hr).games gid
  have hinv := hw.startedInv hs
  have hcr : (st.games gid).creator ≠ 0 := by
    intro h0
    rw [(hw.emptyGame h0).2] at hs
    exact absurd hs (by decide)
  refine ⟨hinv.2.2, ?_, ?_⟩
  · simp only [getAlivePlayerCount]
    rw [if_neg hcr]
    rfl
  · intro n hn
    simp only [getAlivePlayerCount] at hn
    rw [if_neg hcr] at hn
    have hn2 : aliveFold (st.games gid).players (st.games gid).alive = n :=
      (Except.ok.injEq _ _).mp hn
    have hmem : (2 : Nat) ∈ (st.games gid).roles := by
      have h2 : (2 : Nat) ∈ Multiset.ofList (st.games gid).roles := by
        rw [hinv.2.1]; decide
      simpa using h2
    obtain ⟨p0, p1, p2, p3, hpl⟩ := exists_len4 (st.games gid).players hw.lenPlayers
    obtain ⟨a0, a1, a2, a3, hal⟩ := exists_len4 (st.games gid).alive hw.lenAlive
    obtain ⟨r0, r1, r2, r3, hrl⟩ := exists_len4 (st.games gid).roles hw.lenRoles
    rw [hpl, hal] at hn2
    rw [hrl] at hmem
    rw [← hn2]
    simp only [List.mem_cons, List.not_mem_nil, or_false] at hmem
    have hseat : ∃ w, w < 4 ∧ [r0, r1, r2, r3].getD w 0 = 2 := by
      rcases hmem with h | h | h | h
      · exact ⟨0, by omega, by simpa using h.symm⟩
      · exact ⟨1, by omega, by simpa using h.symm⟩
      · exact ⟨2, by omega, by simpa using h.symm⟩
      · exact ⟨3, by omega, by simpa using h.symm⟩
    obtain ⟨w, hwlt, hwrole⟩ := hseat
    have hwalive : [a0, a1, a2, a3].getD w false = true := by
      have hh := hinv.2.2 w hwlt (by rw [hrl]; exact hwrole)
      rw [hal] at hh
      exact hh
    have hwocc : [p0, p1, p2, p3].getD w 0 ≠ 0 := by
      have hpc4 := hinv.1
      have hh := (hw.seated w (by omega)).1
      rw [hpl] at hh
      exact hh
    exact aliveFold_pos p0 p1 p2 p3 a0 a1 a2 a3 w hwlt hwocc hwalive

/-- Witness for C10: the werewolf seat (seat 1) of the attacked demo
game is alive. -/
theorem werewolf_alive_invariant_witness :
    (stF.games 0).alive.getD 1 false = true :=
  (werewolf_alive_invariant hz4 hz2 stF reach_stF 0 (by decide)).1 1
    (by norm_num) (by decide)
